import Mathlib

/-!
Verification of the turn-orchestration core of `examples/self_test/insight_agent.py`.

The Python module drives a chat loop: a `SimpleHooks` object tracks tool
errors (`on_tool_end` classifies each rendered tool result by substring
matching), user input is enriched with recent error context before dispatch,
the model-runner outcome is classified (success with optional advisory
warning, system failure, or escaped MCP tool error), and MCP servers are
connected at startup and cleaned up at shutdown with per-server fault
isolation.

The embedding below mirrors the Python code:
* Python `pat in s` (substring test) is `strContains s pat`;
* Python `s.lower()` is `lowerStr`; `s.strip()` is `trimStr`;
* Python `s[:n]` slicing is `takeStr s n` (code-point prefix);
* the model-runner (`Runner.run`) is opaque: a run is represented by the
  list of `on_tool_end` events it fires plus a `RunnerOutcome` (normal
  return with a final-output string, or a raised exception message);
* printing is modelled by accumulating the printed strings in order.
-/

/-- Boolean test: `pat` is a prefix of `l` (character lists). -/
def startsWithChars : List Char → List Char → Bool
  | [], _ => true
  | _ :: _, [] => false
  | a :: as, b :: bs => a == b && startsWithChars as bs

/-- Boolean test: `pat` occurs contiguously inside `l` (character lists). -/
def containsChars (pat : List Char) : List Char → Bool
  | [] => startsWithChars pat []
  | c :: rest => startsWithChars pat (c :: rest) || containsChars pat rest

/-- Python `pat in s`: substring containment on code points. -/
def strContains (s pat : String) : Bool := containsChars pat.data s.data

/-- Python `s.lower()`: character-wise lower-casing. -/
def lowerStr (s : String) : String := String.mk (s.data.map Char.toLower)

/-- Python `s.strip()`: remove leading and trailing whitespace. -/
def trimStr (s : String) : String :=
  String.mk (((s.data.dropWhile Char.isWhitespace).reverse.dropWhile
      Char.isWhitespace).reverse)

/-- Python `s[:n]`: the first `n` code points of `s`. -/
def takeStr (s : String) (n : Nat) : String := String.mk (s.data.take n)

/-- A single-quote character as a string (used by the Python f-strings). -/
def squo : String := String.singleton (Char.ofNat 39)

/-- One entry of the error history: the `error_info` dict built in
`SimpleHooks.on_tool_end`, holding the tool name, the truncated error text,
and the fixed timestamp string. -/
structure ToolInvocationRecord where
  tool : String
  error : String
  timestamp : String
deriving Repr, DecidableEq

/-- The mutable state of `SimpleHooks`: `last_tool_error` (slot for the
current turn) and `tool_errors` (the append-only error history). -/
structure SimpleHooks where
  last_tool_error : Option ToolInvocationRecord
  tool_errors : List ToolInvocationRecord
deriving Repr, DecidableEq

/-- `SimpleHooks.__init__`: empty slot, empty history. -/
def initHooks : SimpleHooks := ⟨none, []⟩

/-- `SimpleHooks.on_tool_end`: render the result, classify it by the
substring check on the lower-cased text, and on an error append a record
(first 500 characters) to the history and fill the slot; otherwise leave
the state unchanged (the success branch only logs). -/
def on_tool_end (st : SimpleHooks) (toolName result_str : String) : SimpleHooks :=
  if strContains (lowerStr result_str) "error"
      || strContains (lowerStr result_str) "database configuration not set" then
    let error_info : ToolInvocationRecord :=
      ⟨toolName, takeStr result_str 500, "just now"⟩
    { last_tool_error := some error_info,
      tool_errors := st.tool_errors ++ [error_info] }
  else st

/-- The per-turn reset `hooks.last_tool_error = None` executed by `run_chat`
before each model-runner call. -/
def reset_turn (st : SimpleHooks) : SimpleHooks :=
  { st with last_tool_error := none }

/-- The `error_context` block built in `run_chat`: a delimited system note
listing the given records, each as its tool name and the first 200
characters of its error text. -/
def errorNoteBlock (recent : List ToolInvocationRecord) : String :=
  "\n\n[System Note: Recent tool errors for context:\n"
    ++ String.join (recent.enum.map (fun p =>
        toString (p.1 + 1) ++ ". Tool " ++ squo ++ p.2.tool ++ squo
          ++ " error: " ++ takeStr p.2.error 200 ++ "...\n"))
    ++ "]"

/-- The enrichment guard in `run_chat`: lower-cased user text mentions
"error" or "tool call", and the error history is non-empty. -/
def enrichTrigger (user_input : String)
    (tool_errors : List ToolInvocationRecord) : Bool :=
  (strContains (lowerStr user_input) "error"
      || strContains (lowerStr user_input) "tool call")
    && !tool_errors.isEmpty

/-- The enrichment step of `run_chat`: when triggered, append the note block
for the last 3 history records (`tool_errors[-3:]`) to the user text;
otherwise return the user text unchanged. -/
def enrich (user_input : String)
    (tool_errors : List ToolInvocationRecord) : String :=
  if enrichTrigger user_input tool_errors then
    user_input ++ errorNoteBlock (tool_errors.drop (tool_errors.length - 3))
  else
    user_input

/-- Outcome of one `Runner.run` call: a normal return carrying
`result.final_output`, or a raised exception carrying `str(e)`. -/
inductive RunnerOutcome where
  | ok (final_output : String)
  | raised (msg : String)
deriving Repr, DecidableEq

/-- The "🤔 Thinking..." line printed at the start of each turn. -/
def thinkingLine : String := "🤔 Thinking..."

/-- The advisory warning printed after a successful run when the slot is
set: names the tool and shows the first 300 characters of the error. -/
def warningMsg (e : ToolInvocationRecord) : String :=
  "\n⚠️  Note: Tool " ++ squo ++ e.tool ++ squo
    ++ " encountered an error:\n" ++ takeStr e.error 300

/-- The final-output line printed after each successful run. -/
def agentLine (final_output : String) : String := "\n🤖 Agent: " ++ final_output

/-- The system-failure line printed when a raised exception does not contain
"MCP error". -/
def systemErrorLine (msg : String) : String := "❌ System Error: " ++ msg

/-- The first line printed when a raised exception does contain "MCP error". -/
def mcpErrorLine (msg : String) : String := "❌ Error: " ++ msg

/-- The second line of the "MCP error" branch, flagging that automatic
handling was expected. -/
def mcpAdvisory : String :=
  "⚠️  The agent should have been able to handle this automatically."

/-- Result of processing one non-command user line: the hooks state after
the turn, the text actually dispatched to the model-runner, and the lines
printed during the turn, in order. -/
structure TurnResult where
  hooks : SimpleHooks
  dispatched : String
  printed : List String
deriving Repr, DecidableEq

/-- One turn of `run_chat` for a non-empty, non-command input: print the
thinking line, reset the per-turn slot, enrich the input, run the model
(which fires the given `on_tool_end` events and then returns or raises),
then classify the outcome exactly as the Python `try/except` does. -/
def processTurn (st : SimpleHooks) (user_input : String)
    (toolEvents : List (String × String)) (outcome : RunnerOutcome) :
    TurnResult :=
  let st1 := reset_turn st
  let enhanced_input := enrich user_input st1.tool_errors
  let st2 := toolEvents.foldl (fun s ev => on_tool_end s ev.1 ev.2) st1
  match outcome with
  | .ok final_output =>
    let warn : List String :=
      match st2.last_tool_error with
      | some e => [warningMsg e]
      | none => []
    ⟨st2, enhanced_input, thinkingLine :: (warn ++ [agentLine final_output])⟩
  | .raised msg =>
    if strContains msg "MCP error" = false then
      ⟨st2, enhanced_input, [thinkingLine, systemErrorLine msg]⟩
    else
      ⟨st2, enhanced_input, [thinkingLine, mcpErrorLine msg, mcpAdvisory]⟩

/-- Classification of one raw input line, mirroring the `if` chain of
`run_chat`: strip, then compare the lower-cased text against the commands. -/
inductive Command where
  | emptyLine
  | debugSession
  | quitCmd
  | turn (text : String)
deriving Repr, DecidableEq

/-- Input handling of `run_chat`: strip the raw line, then the empty check,
then the comparison with "debug session", then membership in the quit
command list (quit, exit, bye), all on the lower-cased stripped text;
anything else starts a turn with the stripped text. -/
def classifyInput (raw : String) : Command :=
  let user_input := trimStr raw
  if user_input = "" then .emptyLine
  else if lowerStr user_input = "debug session" then .debugSession
  else if lowerStr user_input = "quit" || lowerStr user_input = "exit"
      || lowerStr user_input = "bye" then .quitCmd
  else .turn user_input

/-- One persisted session item as seen by the debug command: `tag` models
the type-or-role tag the debug command extracts from the item dict, and
`render` models the full rendering of the item. -/
structure SessionItem where
  tag : String
  render : String
deriving Repr, DecidableEq

/-- The lines printed by the `debug session` command: the item count, then
the last 5 items, each truncated to 100 characters. -/
def debugPrints (items : List SessionItem) : List String :=
  ("\n📊 Session has " ++ toString items.length ++ " items:")
    :: ((items.drop (items.length - 5)).enum.map (fun p =>
        "  " ++ toString (p.1 + 1) ++ ". " ++ p.2.tag ++ ": "
          ++ takeStr p.2.render 100))

/-- One external event driving the chat loop: a line of user input together
with the opaque model-runner behaviour for that line (tool events fired,
session items appended, and the outcome), or a keyboard interrupt. -/
inductive Ev where
  | line (raw : String) (toolEvents : List (String × String))
      (appends : List SessionItem) (outcome : RunnerOutcome)
  | interrupt
deriving Repr, DecidableEq

/-- Why the chat loop stopped consuming events. -/
inductive ExitReason where
  | quitCommand
  | interrupted
  | scriptEnd
deriving Repr, DecidableEq

/-- Observable result of running the chat loop on a script of events. -/
structure LoopResult where
  printed : List String
  hooks : SimpleHooks
  sessionItems : List SessionItem
  runner_calls : Nat
  reason : ExitReason
deriving Repr, DecidableEq

/-- The `while True` loop of `run_chat`, driven by a finite script of
events: empty lines are skipped, `debug session` prints the session and
continues, quit commands break, any other line runs one turn (one
model-runner call) and continues; a `KeyboardInterrupt` ends the loop
through the `except KeyboardInterrupt` handler. -/
def chatLoop (st : SimpleHooks) (sess : List SessionItem) :
    List Ev → LoopResult
  | [] => ⟨[], st, sess, 0, .scriptEnd⟩
  | .interrupt :: _ => ⟨["\n👋 Goodbye!"], st, sess, 0, .interrupted⟩
  | .line raw toolEvents appends outcome :: rest =>
    match classifyInput raw with
    | .emptyLine => chatLoop st sess rest
    | .debugSession =>
      let r := chatLoop st sess rest
      ⟨debugPrints sess ++ r.printed, r.hooks, r.sessionItems,
        r.runner_calls, r.reason⟩
    | .quitCmd => ⟨["👋 Goodbye!"], st, sess, 0, .quitCommand⟩
    | .turn user_input =>
      let tr := processTurn st user_input toolEvents outcome
      let r := chatLoop tr.hooks (sess ++ appends) rest
      ⟨tr.printed ++ r.printed, r.hooks, r.sessionItems,
        r.runner_calls + 1, r.reason⟩

/-- The connection pattern of `create_agent_and_servers`, one try/except
block per spec: a spec whose `connect()` succeeds is appended to the active list, a
failing one is logged and skipped, and later specs are attempted either
way. -/
def connect_all (connects : String → Bool) : List String → List String
  | [] => []
  | spec :: rest =>
    if connects spec then spec :: connect_all connects rest
    else connect_all connects rest

/-- The `finally` block of `run_chat`: one `cleanup()` attempt per connected
server, each wrapped in its own try/except, so a failing cleanup (second
component `true`) is logged and the loop moves on to the next server. -/
def cleanup_all (cleanupFails : String → Bool) :
    List String → List (String × Bool)
  | [] => []
  | srv :: rest => (srv, cleanupFails srv) :: cleanup_all cleanupFails rest

/-- Whole-session result: what the loop did, plus the cleanup attempts made
by the `finally` block (server name, whether its cleanup raised). -/
structure ChatResult where
  loop : LoopResult
  cleanup_attempts : List (String × Bool)
deriving Repr, DecidableEq

/-- `run_chat` end to end: fresh hooks and session, the event loop, and —
on every exit path (quit command, interrupt, or script end), because the
cleanup sits in a `finally` block — the per-server cleanup attempts. -/
def run_chat (mcp_servers : List String) (cleanupFails : String → Bool)
    (evs : List Ev) : ChatResult :=
  ⟨chatLoop initHooks [] evs, cleanup_all cleanupFails mcp_servers⟩

/-- The consistency invariant between the per-turn slot and the history:
whenever the slot is filled, it holds the most recently appended record. -/
def slotConsistent (st : SimpleHooks) : Prop :=
  ∀ e, st.last_tool_error = some e → st.tool_errors.getLast? = some e

theorem startsWithChars_iff (pat l : List Char) :
    startsWithChars pat l = true ↔ pat <+: l := by
  induction pat generalizing l with
  | nil => simp [startsWithChars]
  | cons a as ih =>
    cases l with
    | nil => simp [startsWithChars]
    | cons b bs =>
      simp [startsWithChars, List.cons_prefix_cons, ih, Bool.and_eq_true,
        beq_iff_eq]

theorem containsChars_iff (pat l : List Char) :
    containsChars pat l = true ↔ pat <:+: l := by
  induction l with
  | nil => simp [containsChars, startsWithChars_iff, List.infix_nil]
  | cons c rest ih =>
    simp [containsChars, Bool.or_eq_true, startsWithChars_iff, ih,
      List.infix_cons_iff]

theorem strContains_iff (s pat : String) :
    strContains s pat = true ↔ pat.data <:+: s.data := containsChars_iff _ _

theorem data_of_append (s t : String) : (s ++ t).data = s.data ++ t.data := rfl

theorem strContains_middle (a b c : String) :
    strContains (a ++ b ++ c) b = true := by
  rw [strContains_iff]
  exact ⟨a.data, c.data, by simp [data_of_append]⟩

theorem length_takeStr (s : String) (n : Nat) :
    (takeStr s n).length = min n s.length := by
  show (s.data.take n).length = min n s.data.length
  simp

/-- C1: `on_tool_end` appends exactly one record — the tool name and the
first 500 characters of the rendered result — to the error history and
fills the last-error slot with the same record precisely when the
lower-cased rendering contains "error" or "database configuration not
set"; for every other result the hooks state is unchanged. -/
theorem on_tool_end_classifies (st : SimpleHooks) (tn result_str : String) :
    ((strContains (lowerStr result_str) "error"
        || strContains (lowerStr result_str) "database configuration not set")
          = true →
      (on_tool_end st tn result_str).tool_errors
          = st.tool_errors ++ [⟨tn, takeStr result_str 500, "just now"⟩]
        ∧ (on_tool_end st tn result_str).last_tool_error
          = some ⟨tn, takeStr result_str 500, "just now"⟩)
    ∧ ((strContains (lowerStr result_str) "error"
        || strContains (lowerStr result_str) "database configuration not set")
          = false →
      on_tool_end st tn result_str = st) := by
  constructor
  · intro h
    simp [on_tool_end, h]
  · intro h
    simp [on_tool_end, h]

theorem on_tool_end_classifies_witness :
    ((strContains (lowerStr "Error: database configuration not set") "error"
        || strContains (lowerStr "Error: database configuration not set")
            "database configuration not set") = true)
    ∧ (on_tool_end initHooks "query" "Error: database configuration not set").tool_errors
        = [⟨"query", "Error: database configuration not set", "just now"⟩] := by
  refine ⟨by decide, ?_⟩
  have h := (on_tool_end_classifies initHooks "query"
    "Error: database configuration not set").1 (by decide)
  rw [h.1]
  decide

theorem slotConsistent_on_tool_end (st : SimpleHooks) (h : slotConsistent st)
    (tn r : String) : slotConsistent (on_tool_end st tn r) := by
  unfold on_tool_end
  split
  · intro e he
    simp only [Option.some.injEq] at he
    subst he
    simp [List.getLast?_concat]
  · exact h

theorem slotConsistent_reset (st : SimpleHooks) :
    slotConsistent (reset_turn st) := by
  intro e he
  simp [reset_turn] at he

theorem slotConsistent_foldl (tes : List (String × String)) (st : SimpleHooks)
    (h : slotConsistent st) :
    slotConsistent (tes.foldl (fun s ev => on_tool_end s ev.1 ev.2) st) := by
  induction tes generalizing st with
  | nil => exact h
  | cons te rest ih =>
    exact ih _ (slotConsistent_on_tool_end _ h _ _)

theorem processTurn_hooks (st : SimpleHooks) (ui : String)
    (tes : List (String × String)) (o : RunnerOutcome) :
    (processTurn st ui tes o).hooks
      = tes.foldl (fun s ev => on_tool_end s ev.1 ev.2) (reset_turn st) := by
  cases o with
  | ok fo => rfl
  | raised msg =>
    simp only [processTurn]
    split <;> rfl

/-- C3: the invariant "if the last-error slot is filled then it equals the
most recently appended history record" holds initially and is preserved by
`on_tool_end` (which fills the slot and appends the same record together),
by the per-turn reset (which only empties the slot, leaving the history
untouched), and by a whole turn (`processTurn`, which composes the reset
with the `on_tool_end` events of the run). -/
theorem slot_matches_last_append (st : SimpleHooks) (h : slotConsistent st)
    (tn r ui : String) (tes : List (String × String)) (o : RunnerOutcome) :
    slotConsistent initHooks
    ∧ slotConsistent (on_tool_end st tn r)
    ∧ slotConsistent (reset_turn st)
    ∧ (reset_turn st).tool_errors = st.tool_errors
    ∧ (reset_turn st).last_tool_error = none
    ∧ slotConsistent (processTurn st ui tes o).hooks := by
  refine ⟨?_, slotConsistent_on_tool_end st h tn r, slotConsistent_reset st,
    rfl, rfl, ?_⟩
  · intro e he
    simp [initHooks] at he
  · rw [processTurn_hooks]
    exact slotConsistent_foldl _ _ (slotConsistent_reset st)

theorem slot_matches_last_append_witness :
    slotConsistent (on_tool_end initHooks "db" "Error: x") := by
  have h := slot_matches_last_append initHooks
    (by intro e he; simp [initHooks] at he) "db" "Error: x" "hi" [] (.ok "y")
  exact h.2.1

/-- C6: enrichment is the identity on the user text when the error history
is empty (for any text), and also when the lower-cased text contains neither
"error" nor "tool call"; and it is side-effect free — in particular the
hooks state produced by a turn does not depend on the user text at all,
so the enrichment step never writes to the tracker. -/
theorem enrich_identity (ui ui2 : String) (errs : List ToolInvocationRecord)
    (st : SimpleHooks) (tes : List (String × String)) (o : RunnerOutcome) :
    enrich ui [] = ui
    ∧ ((strContains (lowerStr ui) "error" = false
          ∧ strContains (lowerStr ui) "tool call" = false) →
        enrich ui errs = ui)
    ∧ (processTurn st ui tes o).hooks = (processTurn st ui2 tes o).hooks := by
  refine ⟨?_, ?_, ?_⟩
  · simp [enrich, enrichTrigger]
  · intro h
    simp [enrich, enrichTrigger, h.1, h.2]
  · rw [processTurn_hooks, processTurn_hooks]

theorem enrich_identity_witness :
    (strContains (lowerStr "hello there") "error" = false
      ∧ strContains (lowerStr "hello there") "tool call" = false)
    ∧ enrich "hello there" [⟨"db", "Error: x", "just now"⟩] = "hello there" := by
  refine ⟨by decide, ?_⟩
  exact (enrich_identity "hello there" "x"
    [⟨"db", "Error: x", "just now"⟩] initHooks [] (.ok "y")).2.1 (by decide)

/-- C5: when the lower-cased user text mentions "error" or "tool call" and
the history is non-empty, enrichment returns the original text followed by
the note block over exactly the `min 3 |history|` most recent records
(each rendered with its tool name and the first 200 characters of its
error text, as `errorNoteBlock` shows) — this holds for every non-empty
history, including lengths 1 and 2; and for a history that already has at
least 3 entries, prepending any older records leaves the output
unchanged. -/
theorem enrich_appends_recent (ui : String)
    (errs olds : List ToolInvocationRecord)
    (htrig : (strContains (lowerStr ui) "error"
        || strContains (lowerStr ui) "tool call") = true)
    (hne : errs ≠ []) :
    enrich ui errs = ui ++ errorNoteBlock (errs.drop (errs.length - 3))
    ∧ (errs.drop (errs.length - 3)).length = min 3 errs.length
    ∧ (3 ≤ errs.length → enrich ui (olds ++ errs) = enrich ui errs) := by
  have hne2 : (olds ++ errs) ≠ [] := by
    intro hc
    exact hne (List.append_eq_nil.mp hc).2
  have etrig : ∀ l : List ToolInvocationRecord, l ≠ [] →
      enrich ui l = ui ++ errorNoteBlock (l.drop (l.length - 3)) := by
    intro l hl
    simp [enrich, enrichTrigger, htrig, hl]
  refine ⟨etrig errs hne, ?_, ?_⟩
  · simp only [List.length_drop]
    omega
  · intro h3
    have hdrop : (olds ++ errs).drop ((olds ++ errs).length - 3)
        = errs.drop (errs.length - 3) := by
      have hlen : (olds ++ errs).length - 3
          = olds.length + (errs.length - 3) := by
        simp only [List.length_append]
        omega
      rw [hlen, ← List.drop_drop, List.drop_left]
    rw [etrig errs hne, etrig (olds ++ errs) hne2, hdrop]

theorem enrich_appends_recent_witness :
    enrich "why the error"
        [⟨"t0", "old", "just now"⟩, ⟨"t1", "e1", "just now"⟩,
         ⟨"t2", "e2", "just now"⟩, ⟨"t3", "e3", "just now"⟩]
      = enrich "why the error"
        [⟨"t1", "e1", "just now"⟩, ⟨"t2", "e2", "just now"⟩,
         ⟨"t3", "e3", "just now"⟩] := by
  have h := enrich_appends_recent "why the error"
    [⟨"t1", "e1", "just now"⟩, ⟨"t2", "e2", "just now"⟩,
     ⟨"t3", "e3", "just now"⟩]
    [⟨"t0", "old", "just now"⟩] (by decide) (by decide)
  exact h.2.2 (by decide)

/-- C4: when the model-runner returns normally from a turn whose last-error
slot ended up set, the turn prints the thinking line, then an advisory
warning — which names the specific tool and ends with the first 300
characters (hence at most 300) of the recorded error text — and then still
prints the final output of the model as its own line after the warning;
the warning never replaces the final output. -/
theorem warning_then_final_output (st : SimpleHooks) (ui : String)
    (tes : List (String × String)) (fo : String) (e : ToolInvocationRecord)
    (hset : (processTurn st ui tes (.ok fo)).hooks.last_tool_error = some e) :
    (processTurn st ui tes (.ok fo)).printed
        = [thinkingLine, warningMsg e, agentLine fo]
    ∧ strContains (warningMsg e) e.tool = true
    ∧ warningMsg e = ("\n⚠️  Note: Tool " ++ squo ++ e.tool ++ squo
        ++ " encountered an error:\n") ++ takeStr e.error 300
    ∧ (takeStr e.error 300).length ≤ 300 := by
  have hst2 : (tes.foldl (fun s ev => on_tool_end s ev.1 ev.2)
      (reset_turn st)).last_tool_error = some e := by
    rw [← processTurn_hooks st ui tes (.ok fo)]
    exact hset
  refine ⟨?_, ?_, ?_, ?_⟩
  · simp only [processTurn, hst2]
    rfl
  · have hshape : warningMsg e
        = ("\n⚠️  Note: Tool " ++ squo) ++ e.tool
          ++ (squo ++ (" encountered an error:\n" ++ takeStr e.error 300)) := by
      simp [warningMsg, String.append_assoc]
    rw [hshape]
    exact strContains_middle _ _ _
  · simp [warningMsg, String.append_assoc]
  · rw [length_takeStr]
    exact Nat.min_le_left _ _

theorem warning_then_final_output_witness :
    (processTurn initHooks "hi" [("db", "Error: boom")] (.ok "done")).printed
      = [thinkingLine, warningMsg ⟨"db", "Error: boom", "just now"⟩,
         agentLine "done"] := by
  have h := warning_then_final_output initHooks "hi" [("db", "Error: boom")]
    "done" ⟨"db", "Error: boom", "just now"⟩ (by decide)
  exact h.1

/-- C2: when the model-runner call raises, the output of the turn is
classified by the exception text. Without the "MCP error" marker the turn prints the
system-failure line; with the marker it prints the distinct error line plus
the flag that automatic handling was expected. In both cases the chat loop
continues: the printed output of the line is followed by the printed
output of the remaining events, the runner-call count keeps growing with
the rest, and the exit reason is whatever the subsequent events produce —
the raised exception never terminates the loop. -/
theorem raised_outcome_classified (st : SimpleHooks) (sess : List SessionItem)
    (raw user_input : String) (tes : List (String × String))
    (apps : List SessionItem) (msg : String) (rest : List Ev)
    (hcmd : classifyInput raw = .turn user_input) :
    (strContains msg "MCP error" = false →
      (processTurn st user_input tes (.raised msg)).printed
        = [thinkingLine, systemErrorLine msg])
    ∧ (strContains msg "MCP error" = true →
      (processTurn st user_input tes (.raised msg)).printed
        = [thinkingLine, mcpErrorLine msg, mcpAdvisory])
    ∧ (chatLoop st sess (.line raw tes apps (.raised msg) :: rest)).printed
        = (processTurn st user_input tes (.raised msg)).printed
          ++ (chatLoop (processTurn st user_input tes (.raised msg)).hooks
              (sess ++ apps) rest).printed
    ∧ (chatLoop st sess (.line raw tes apps (.raised msg) :: rest)).reason
        = (chatLoop (processTurn st user_input tes (.raised msg)).hooks
            (sess ++ apps) rest).reason
    ∧ (chatLoop st sess (.line raw tes apps (.raised msg) :: rest)).runner_calls
        = (chatLoop (processTurn st user_input tes (.raised msg)).hooks
            (sess ++ apps) rest).runner_calls + 1 := by
  refine ⟨?_, ?_, ?_, ?_, ?_⟩
  · intro h
    simp [processTurn, h]
  · intro h
    simp [processTurn, h]
  · simp [chatLoop, hcmd]
  · simp [chatLoop, hcmd]
  · simp [chatLoop, hcmd]

theorem raised_outcome_classified_witness :
    (processTurn initHooks "hello" [] (.raised "boom")).printed
      = [thinkingLine, systemErrorLine "boom"] := by
  have h := raised_outcome_classified initHooks [] "hello" "hello" [] []
    "boom" [] (by decide)
  exact h.1 (by decide)

/-- C9: every raw input line is stripped before handling, and command
matching happens on the lower-cased stripped text: a whitespace-only line
behaves exactly like no line at all (the loop state, output, and
runner-call count are those of the remaining events — no turn starts and
the model-runner is not called), two inputs with the same stripped text are
classified identically, and padded or differently-cased control inputs such
as "  QUIT " and "Debug Session" are still recognized as the quit and
debug commands. -/
theorem input_normalized (raw : String) (st : SimpleHooks)
    (sess : List SessionItem) (tes : List (String × String))
    (apps : List SessionItem) (o : RunnerOutcome) (rest : List Ev)
    (hws : trimStr raw = "") :
    chatLoop st sess (.line raw tes apps o :: rest) = chatLoop st sess rest
    ∧ classifyInput raw = .emptyLine
    ∧ (∀ r s : String, trimStr r = trimStr s →
        classifyInput r = classifyInput s)
    ∧ classifyInput "  QUIT " = .quitCmd
    ∧ classifyInput " Exit" = .quitCmd
    ∧ classifyInput "BYE" = .quitCmd
    ∧ classifyInput "Debug Session" = .debugSession := by
  have hcls : classifyInput raw = .emptyLine := by
    simp [classifyInput, hws]
  refine ⟨?_, hcls, ?_, by decide, by decide, by decide, by decide⟩
  · simp [chatLoop, hcls]
  · intro r s hrs
    simp [classifyInput, hrs]

theorem input_normalized_witness :
    chatLoop initHooks [] [.line "   " [] [] (.ok "x")] = chatLoop initHooks [] [] := by
  have h := input_normalized "   " initHooks [] [] [] (.ok "x") [] (by decide)
  exact h.1

theorem head_of_warningMsg (e : ToolInvocationRecord) :
    (warningMsg e).data.head? = some (Char.ofNat 10) := rfl

theorem head_of_systemErrorLine (msg : String) :
    (systemErrorLine msg).data.head? = some (Char.ofNat 10060) := rfl

theorem head_of_mcpErrorLine (msg : String) :
    (mcpErrorLine msg).data.head? = some (Char.ofNat 10060) := rfl

theorem warningMsg_ne_lines (e : ToolInvocationRecord) (msg : String) :
    warningMsg e ≠ thinkingLine ∧ warningMsg e ≠ systemErrorLine msg
    ∧ warningMsg e ≠ mcpErrorLine msg ∧ warningMsg e ≠ mcpAdvisory := by
  refine ⟨?_, ?_, ?_, ?_⟩
  · intro h
    have h2 : (warningMsg e).data.head? = thinkingLine.data.head? := by rw [h]
    rw [head_of_warningMsg] at h2
    revert h2
    decide
  · intro h
    have h2 : (warningMsg e).data.head? = (systemErrorLine msg).data.head? := by
      rw [h]
    rw [head_of_warningMsg, head_of_systemErrorLine] at h2
    exact absurd h2 (by decide)
  · intro h
    have h2 : (warningMsg e).data.head? = (mcpErrorLine msg).data.head? := by
      rw [h]
    rw [head_of_warningMsg, head_of_mcpErrorLine] at h2
    exact absurd h2 (by decide)
  · intro h
    have h2 : (warningMsg e).data.head? = mcpAdvisory.data.head? := by rw [h]
    rw [head_of_warningMsg] at h2
    revert h2
    decide

/-- C10: when the model-runner raises, the turn prints only the thinking
line and the exception-classification lines — no advisory tool-error
warning ever appears in the printed output, even if `on_tool_end` filled the
last-error slot earlier in the same turn, because the slot is inspected
only on the successful-return path; and the incoming slot content is
irrelevant to any turn (it is discarded by the reset when the turn
starts), so the slot left over from a failed turn is dropped by the next
turn. -/
theorem no_warning_on_raised (st : SimpleHooks) (ui : String)
    (tes : List (String × String)) (msg : String)
    (x : Option ToolInvocationRecord) :
    (processTurn st ui tes (.raised msg)).printed
        = (if strContains msg "MCP error" = false
            then [thinkingLine, systemErrorLine msg]
            else [thinkingLine, mcpErrorLine msg, mcpAdvisory])
    ∧ (∀ e : ToolInvocationRecord,
        warningMsg e ∉ (processTurn st ui tes (.raised msg)).printed)
    ∧ (∀ o : RunnerOutcome,
        processTurn { st with last_tool_error := x } ui tes o
          = processTurn st ui tes o) := by
  refine ⟨?_, ?_, ?_⟩
  · by_cases h : strContains msg "MCP error" = false <;> simp [processTurn, h]
  · intro e
    have hne := warningMsg_ne_lines e msg
    by_cases h : strContains msg "MCP error" = false <;>
      simp [processTurn, h, hne.1, hne.2.1, hne.2.2.1, hne.2.2.2]
  · intro o
    cases o <;> rfl

/-- C7: startup connection handling never fails as a whole: connecting is
attempted spec by spec, a failing spec is skipped (the attempt for the next
spec is still made, so the result for `fail :: specs` is the result for
`specs`), and the active list returned is exactly the successfully
connecting specs in order. -/
theorem connect_all_tolerates_failures (connects : String → Bool)
    (specs : List String) (a : String) (hfail : connects a = false) :
    connect_all connects (a :: specs) = connect_all connects specs
    ∧ connect_all connects specs = specs.filter connects := by
  constructor
  · simp [connect_all, hfail]
  · induction specs with
    | nil => rfl
    | cons b rest ih =>
      by_cases hb : connects b <;> simp [connect_all, hb, ih]

theorem connect_all_tolerates_failures_witness :
    connect_all (fun s => s == "B") ["A", "B"] = ["B"] := by
  have h := connect_all_tolerates_failures (fun s => s == "B") ["B"] "A"
    (by decide)
  rw [h.1, h.2]
  decide

/-- C8: whatever event script ends the chat loop — a quit command, an
interrupt, or the script running out — the `finally` block attempts cleanup
exactly once per connected server, in order, including for zero or several
servers; each attempt records its own failure bit, and the recursion
continues past a failing server, so one failure never suppresses the
remaining attempts. -/
theorem cleanup_once_per_server (mcp_servers : List String)
    (cleanupFails : String → Bool) (evs : List Ev) :
    ((run_chat mcp_servers cleanupFails evs).cleanup_attempts).map Prod.fst
        = mcp_servers
    ∧ (∀ srv rest, cleanup_all cleanupFails (srv :: rest)
        = (srv, cleanupFails srv) :: cleanup_all cleanupFails rest) := by
  constructor
  · show (cleanup_all cleanupFails mcp_servers).map Prod.fst = mcp_servers
    induction mcp_servers with
    | nil => rfl
    | cons s rest ih => simp [cleanup_all, ih]
  · intro srv rest
    rfl

theorem no_warning_on_raised_witness :
    (processTurn initHooks "hi" [("db", "Error: z")] (.raised "kaput")).printed
      = [thinkingLine, systemErrorLine "kaput"] := by
  have h := no_warning_on_raised initHooks "hi" [("db", "Error: z")] "kaput" none
  rw [h.1]
  decide
